import Mathlib

/-!
Verification development for the SPIR-T-like IR toolkit: the cross-module
merging pass (`src/passes/merge.rs`) and the binary lowering pass
(`src/spv/lower.rs`), embedded shallowly.

Conventions of the embedding:
* interned handles (`Type`, `Const`, `DataInstForm`) and arena handles
  (`GlobalVar`, `Func`) are natural numbers;
* hash maps are association lists where a freshly inserted binding is found
  first (so a later insert for the same key overrides an earlier one);
* `BTreeSet`s of capabilities/extensions are finite sets; extension-name
  strings are modelled as atomic numeric codes;
* recursion through the declaration graph is bounded by explicit fuel, with
  `none` meaning the fuel ran out (or a lookup that would panic in the
  source failed).
-/

set_option maxRecDepth 8192

deriving instance DecidableEq for Except

namespace Spirt

/-- Generic association-list lookup (models `HashMap::get`): the binding
inserted most recently (closest to the head) wins. -/
def alook {κ α : Type} [DecidableEq κ] : List (κ × α) → κ → Option α
  | [], _ => none
  | (k, v) :: rest, x => if k = x then some v else alook rest x

/-- Replace the value stored under a key (first occurrence), keeping order. -/
def replaceVal {κ α : Type} [DecidableEq κ] : List (κ × α) → κ → α → List (κ × α)
  | [], _, _ => []
  | (k', v') :: rest, k, v => if k' = k then (k, v) :: rest else (k', v') :: replaceVal rest k v

/-- Models `HashMap::insert`: returns the previous value (if any) and the
updated map. -/
def insertMap {κ α : Type} [DecidableEq κ] (m : List (κ × α)) (k : κ) (v : α) :
    Option α × List (κ × α) :=
  match alook m k with
  | some old => (some old, replaceVal m k v)
  | none => (none, m ++ [(k, v)])

/-- Remove the binding of a key (models `HashMap::remove` on maps whose keys
are unique). -/
def removeKey {κ α : Type} [DecidableEq κ] : List (κ × α) → κ → List (κ × α)
  | [], _ => []
  | (k', v) :: rest, k => if k' = k then rest else (k', v) :: removeKey rest k

/-- Errors of the module-merging pass (`MergeError` in `passes/merge.rs`,
keeping the source's spelling of the variant names). -/
inductive MergeError
  | incompatibleModuleDialects
  | memoryModelMissmatch
  | addressingModelMissmatch
  | versionMissmatch (mergee : Nat × Nat) (merged : Nat × Nat)
  | duplicateExportKey
  deriving DecidableEq, Repr

/-- The SPIR-V dialect descriptor (`spv::Dialect`). Capability and extension
`BTreeSet`s are modelled as finite sets; extension-name strings are atomic
numeric codes. -/
structure SpvDialect where
  versionMajor : Nat
  versionMinor : Nat
  originalGeneratorMagic : Nat
  originalIdBound : Nat
  capabilities : Finset Nat
  extensions : Finset Nat
  addressingModel : Nat
  memoryModel : Nat
  deriving DecidableEq

/-- `ModuleDialect`: currently only the SPIR-V dialect exists. -/
inductive ModuleDialect
  | spv (d : SpvDialect)
  deriving DecidableEq

/-- `make_compatible` from `passes/merge.rs`: checks memory model, addressing
model and version for equality, then unions `b`'s capability and extension
sets into a copy of `a` (the source inserts every element of `b`'s sets into
`a`'s sets, i.e. computes the set unions). -/
def makeCompatible (a : ModuleDialect) (b : ModuleDialect) : Except MergeError ModuleDialect :=
  match a, b with
  | .spv aDia, .spv bDia =>
    if aDia.memoryModel ≠ bDia.memoryModel then
      .error .memoryModelMissmatch
    else if aDia.addressingModel ≠ bDia.addressingModel then
      .error .addressingModelMissmatch
    else if aDia.versionMajor ≠ bDia.versionMajor ∨ aDia.versionMinor ≠ bDia.versionMinor then
      .error (.versionMissmatch (aDia.versionMajor, aDia.versionMinor)
        (bDia.versionMajor, bDia.versionMinor))
    else
      .ok (.spv { aDia with
        capabilities := aDia.capabilities ∪ bDia.capabilities,
        extensions := aDia.extensions ∪ bDia.extensions })

/-- One reference ("use") a definition body can hold, one constructor per
visitor/transformer category: interned types, consts, data-inst-forms, and
arena-resident global variables and functions. -/
inductive Use
  | ty (t : Nat)
  | ct (c : Nat)
  | form (d : Nat)
  | gv (g : Nat)
  | fn (f : Nat)
  deriving DecidableEq, Repr

/-- An arena declaration (`GlobalVarDecl` / `FuncDecl`): an identity-bearing
definition whose body holds a list of uses. -/
structure Decl where
  body : List Use
  deriving DecidableEq, Repr

/-- An exported entity (`Exportee`): a global variable or a function handle. -/
inductive Exportee
  | gv (g : Nat)
  | fn (f : Nat)
  deriving DecidableEq, Repr

/-- The interning context: structurally-deduplicated definitions of types,
consts and data-inst-forms, each definition being the list of uses it holds. -/
structure Context where
  tyDefs : List (Nat × List Use)
  ctDefs : List (Nat × List Use)
  formDefs : List (Nat × List Use)
  deriving DecidableEq, Repr

/-- A module: dialect, export map, and arenas of global-variable and function
declarations. -/
structure Module where
  dialect : ModuleDialect
  exports : List (String × Exportee)
  globalVars : List (Nat × Decl)
  funcs : List (Nat × Decl)
  deriving DecidableEq

/-- The state of `CopyCollector` from `passes/merge.rs`, together with the
destination module's arenas it appends into (`dst_module`) and the fresh
handle counter of the context-wide entity allocator. -/
structure CopyCollector where
  seenTypes : List Nat
  seenConsts : List Nat
  seenDataInstForms : List Nat
  seenGlobalVars : List Nat
  seenFuncs : List Nat
  rewriteVar : List (Nat × Nat)
  rewriteFunc : List (Nat × Nat)
  dstGlobalVars : List (Nat × Decl)
  dstFuncs : List (Nat × Decl)
  fresh : Nat
  deriving DecidableEq, Repr

mutual

/-- The `Visitor` impl of `CopyCollector`. For interned handles, a first
encounter marks the handle seen and recurses into its definition, a later
encounter does nothing. For arena handles (`visit_global_var_use` /
`visit_func_use`), a first encounter marks the handle seen and recurses into
its declaration; any later encounter clones the source declaration into the
destination arena under a fresh handle and records (overriding) the
old-handle-to-new-handle rewrite. `visit_attr_set_use` is a no-op, so
attribute sets are not walked. -/
def visitUse (src : Module) (cx : Context) (fuel : Nat) (s : CopyCollector) (u : Use) :
    Option CopyCollector :=
  match fuel with
  | 0 => none
  | fuel' + 1 =>
    match u with
    | .ty t =>
      if t ∈ s.seenTypes then some s
      else
        match alook cx.tyDefs t with
        | none => none
        | some d => visitUses src cx fuel' { s with seenTypes := t :: s.seenTypes } d
    | .ct c =>
      if c ∈ s.seenConsts then some s
      else
        match alook cx.ctDefs c with
        | none => none
        | some d => visitUses src cx fuel' { s with seenConsts := c :: s.seenConsts } d
    | .form f =>
      if f ∈ s.seenDataInstForms then some s
      else
        match alook cx.formDefs f with
        | none => none
        | some d => visitUses src cx fuel' { s with seenDataInstForms := f :: s.seenDataInstForms } d
    | .gv g =>
      match alook src.globalVars g with
      | none => none
      | some dec =>
        if g ∈ s.seenGlobalVars then
          some { s with
            dstGlobalVars := s.dstGlobalVars ++ [(s.fresh, dec)],
            rewriteVar := (g, s.fresh) :: s.rewriteVar,
            fresh := s.fresh + 1 }
        else
          visitUses src cx fuel' { s with seenGlobalVars := g :: s.seenGlobalVars } dec.body
    | .fn f =>
      match alook src.funcs f with
      | none => none
      | some dec =>
        if f ∈ s.seenFuncs then
          some { s with
            dstFuncs := s.dstFuncs ++ [(s.fresh, dec)],
            rewriteFunc := (f, s.fresh) :: s.rewriteFunc,
            fresh := s.fresh + 1 }
        else
          visitUses src cx fuel' { s with seenFuncs := f :: s.seenFuncs } dec.body

/-- Visit a list of uses in order (the `inner_visit_with` traversal of a
definition body). -/
def visitUses (src : Module) (cx : Context) (fuel : Nat) (s : CopyCollector) (l : List Use) :
    Option CopyCollector :=
  match fuel with
  | 0 => none
  | fuel' + 1 =>
    match l with
    | [] => some s
    | u :: rest =>
      match visitUse src cx fuel' s u with
      | none => none
      | some s' => visitUses src cx fuel' s' rest

end

/-- The handle use held by an exportee (`Exportee::inner_visit_with` visits
exactly its global-variable or function handle). -/
def exporteeUse : Exportee → Use
  | .gv g => .gv g
  | .fn f => .fn f

/-- Modelled from the spec: `visit_module` of the structural visitor. The
visitor plumbing (`visit.rs`) is not among the sources; section 4.2 of the
spec describes the second pass as "visit every declaration in the merged
module (not just exports)", so the module visit is modelled as visiting the
handle use of every global variable and of every function of the module, in
arena order. -/
def visitModule (src : Module) (cx : Context) (fuel : Nat) (s : CopyCollector) :
    Option CopyCollector :=
  match visitUses src cx fuel s (src.globalVars.map (fun p => Use.gv p.1)) with
  | none => none
  | some s' => visitUses src cx fuel s' (src.funcs.map (fun p => Use.fn p.1))

/-- The collector `merge` starts from: empty seen-sets and rewrite maps, the
destination module's arenas, and the fresh-handle counter of the context-wide
entity allocator. -/
def initCollector (mergee : Module) (freshStart : Nat) : CopyCollector :=
  { seenTypes := [], seenConsts := [], seenDataInstForms := [],
    seenGlobalVars := [], seenFuncs := [],
    rewriteVar := [], rewriteFunc := [],
    dstGlobalVars := mergee.globalVars, dstFuncs := mergee.funcs,
    fresh := freshStart }

/-- The closure-collection phase of `merge` (`passes/merge.rs`): visit every
exportee of the merged module, then visit the whole merged module, returning
the collector (its rewrite maps and the destination arenas it extended). -/
def collectPhase (cx : Context) (merged : Module) (mergee : Module)
    (freshStart fuel : Nat) : Option CopyCollector :=
  match visitUses merged cx fuel (initCollector mergee freshStart)
      (merged.exports.map (fun p => exporteeUse p.2)) with
  | none => none
  | some s1 => visitModule merged cx fuel s1

/-- `Transformed` from the transformer interface: either the value is kept
unchanged or replaced by a new one. -/
inductive Transformed (α : Type)
  | unchanged
  | changed (v : α)
  deriving DecidableEq, Repr

/-- `Transformed::apply_to`: overwrite the target when changed. -/
def Transformed.applyTo {α : Type} : Transformed α → α → α
  | .unchanged, x => x
  | .changed v, _ => v

/-- Rebuild a use with a possibly-changed handle, keeping its category. -/
def applyHandle : Transformed Nat → Use → Use
  | .unchanged, u => u
  | .changed v, .ty _ => .ty v
  | .changed v, .ct _ => .ct v
  | .changed v, .form _ => .form v
  | .changed v, .gv _ => .gv v
  | .changed v, .fn _ => .fn v

/-- The state of `DeclRewrite` from `passes/merge.rs`: the closure's resolved
handle maps, the per-kind memoization caches, the two FIFO work queues, plus
the shared interning context and the fresh-handle counter `cx.intern` draws
from. -/
structure RwState where
  cx : Context
  fresh : Nat
  resolvedGlobalVars : List (Nat × Nat)
  resolvedFuncs : List (Nat × Nat)
  transformedTypes : List (Nat × Transformed Nat)
  transformedConsts : List (Nat × Transformed Nat)
  transformedDataInstForms : List (Nat × Transformed Nat)
  transformedGlobalVars : List (Nat × Transformed Nat)
  globalVarQueue : List Nat
  transformedFuncs : List (Nat × Transformed Nat)
  funcQueue : List Nat
  deriving DecidableEq, Repr

/-- Find the handle of a structurally equal interned definition, if any. -/
def findHandle : List (Nat × List Use) → List Use → Option Nat
  | [], _ => none
  | (h, d) :: rest, target => if d = target then some h else findHandle rest target

/-- `cx.intern` for type definitions: reuse the handle of a structurally
equal definition or allocate a fresh handle for a new one. -/
def internTy (s : RwState) (d : List Use) : Nat × RwState :=
  match findHandle s.cx.tyDefs d with
  | some h => (h, s)
  | none =>
    (s.fresh,
     { s with cx := { s.cx with tyDefs := s.cx.tyDefs ++ [(s.fresh, d)] }, fresh := s.fresh + 1 })

/-- `cx.intern` for const definitions. -/
def internCt (s : RwState) (d : List Use) : Nat × RwState :=
  match findHandle s.cx.ctDefs d with
  | some h => (h, s)
  | none =>
    (s.fresh,
     { s with cx := { s.cx with ctDefs := s.cx.ctDefs ++ [(s.fresh, d)] }, fresh := s.fresh + 1 })

/-- `cx.intern` for data-inst-form definitions. -/
def internForm (s : RwState) (d : List Use) : Nat × RwState :=
  match findHandle s.cx.formDefs d with
  | some h => (h, s)
  | none =>
    (s.fresh,
     { s with cx := { s.cx with formDefs := s.cx.formDefs ++ [(s.fresh, d)] }, fresh := s.fresh + 1 })

mutual

/-- The `Transformer` impl of `DeclRewrite`. Interned handles get a memoized
structural rewrite: transform the definition's own uses, re-intern the result
when anything changed, and cache the outcome keyed by the original handle.
Arena handles (`transform_global_var_use` / `transform_func_use`): on a cache
miss, if the closure resolved a destination handle, transform that substituted
handle recursively, apply the result to it and report it as changed; with no
resolved mapping the handle is pushed onto the corresponding work queue and
the reference reported unchanged; either way the outcome is cached. -/
def transformUse (fuel : Nat) (s : RwState) (u : Use) : Option (Transformed Nat × RwState) :=
  match fuel with
  | 0 => none
  | fuel' + 1 =>
    match u with
    | .ty t =>
      match alook s.transformedTypes t with
      | some c => some (c, s)
      | none =>
        match alook s.cx.tyDefs t with
        | none => none
        | some d =>
          match transformUses fuel' s d with
          | none => none
          | some (td, s₁) =>
            let p : Transformed Nat × RwState :=
              match td with
              | .unchanged => (.unchanged, s₁)
              | .changed d' =>
                let (h, s₂) := internTy s₁ d'
                (.changed h, s₂)
            some (p.1, { p.2 with transformedTypes := (t, p.1) :: p.2.transformedTypes })
    | .ct c =>
      match alook s.transformedConsts c with
      | some cc => some (cc, s)
      | none =>
        match alook s.cx.ctDefs c with
        | none => none
        | some d =>
          match transformUses fuel' s d with
          | none => none
          | some (td, s₁) =>
            let p : Transformed Nat × RwState :=
              match td with
              | .unchanged => (.unchanged, s₁)
              | .changed d' =>
                let (h, s₂) := internCt s₁ d'
                (.changed h, s₂)
            some (p.1, { p.2 with transformedConsts := (c, p.1) :: p.2.transformedConsts })
    | .form f =>
      match alook s.transformedDataInstForms f with
      | some c => some (c, s)
      | none =>
        match alook s.cx.formDefs f with
        | none => none
        | some d =>
          match transformUses fuel' s d with
          | none => none
          | some (td, s₁) =>
            let p : Transformed Nat × RwState :=
              match td with
              | .unchanged => (.unchanged, s₁)
              | .changed d' =>
                let (h, s₂) := internForm s₁ d'
                (.changed h, s₂)
            some (p.1,
              { p.2 with transformedDataInstForms := (f, p.1) :: p.2.transformedDataInstForms })
    | .gv g =>
      match alook s.transformedGlobalVars g with
      | some c => some (c, s)
      | none =>
        match alook s.resolvedGlobalVars g with
        | some ng =>
          match transformUse fuel' s (.gv ng) with
          | none => none
          | some (t, s₁) =>
            let final := t.applyTo ng
            some (.changed final,
              { s₁ with transformedGlobalVars := (g, .changed final) :: s₁.transformedGlobalVars })
        | none =>
          some (.unchanged,
            { s with transformedGlobalVars := (g, .unchanged) :: s.transformedGlobalVars,
                     globalVarQueue := s.globalVarQueue ++ [g] })
    | .fn f =>
      match alook s.transformedFuncs f with
      | some c => some (c, s)
      | none =>
        match alook s.resolvedFuncs f with
        | some nf =>
          match transformUse fuel' s (.fn nf) with
          | none => none
          | some (t, s₁) =>
            let final := t.applyTo nf
            some (.changed final,
              { s₁ with transformedFuncs := (f, .changed final) :: s₁.transformedFuncs })
        | none =>
          some (.unchanged,
            { s with transformedFuncs := (f, .unchanged) :: s.transformedFuncs,
                     funcQueue := s.funcQueue ++ [f] })

/-- `inner_transform_with` over a list of uses: transform each use in order,
reporting the whole list unchanged only when every member was. -/
def transformUses (fuel : Nat) (s : RwState) (l : List Use) :
    Option (Transformed (List Use) × RwState) :=
  match fuel with
  | 0 => none
  | fuel' + 1 =>
    match l with
    | [] => some (.unchanged, s)
    | u :: rest =>
      match transformUse fuel' s u with
      | none => none
      | some (t, s₁) =>
        match transformUses fuel' s₁ rest with
        | none => none
        | some (ts, s₂) =>
          match t, ts with
          | .unchanged, .unchanged => some (.unchanged, s₂)
          | t, ts => some (.changed (applyHandle t u :: ts.applyTo rest), s₂)

end

/-- Transform an exportee's handle (its `inner_transform_with`). -/
def transformExportee (fuel : Nat) (s : RwState) (e : Exportee) :
    Option (Transformed Nat × RwState) :=
  match e with
  | .gv g => transformUse fuel s (.gv g)
  | .fn f => transformUse fuel s (.fn f)

/-- Rebuild an exportee with a possibly-changed handle. -/
def applyToExportee : Transformed Nat → Exportee → Exportee
  | .unchanged, e => e
  | .changed v, .gv _ => .gv v
  | .changed v, .fn _ => .fn v

/-- The export-registration loop of `merge` (`passes/merge.rs` lines 77-88):
each export of the merged module is inserted into the destination's export
map; if the insert reports a previous value under that key, the loop stops
with `DuplicateExportKey` (the insert itself is not undone); otherwise the
rewrite transform is applied in place to the freshly inserted exportee. -/
def registerExports (fuel : Nat) :
    RwState → List (String × Exportee) → List (String × Exportee) →
    Option (List (String × Exportee) × RwState × Option MergeError)
  | s, [], m => some (m, s, none)
  | s, (k, e) :: rest, m =>
    match insertMap m k e with
    | (some _, m₁) => some (m₁, s, some .duplicateExportKey)
    | (none, m₁) =>
      match transformExportee fuel s e with
      | none => none
      | some (t, s₁) => registerExports fuel s₁ rest (replaceVal m₁ k (applyToExportee t e))

/-- `in_place_transform_global_var_decl`: rewrite a queued declaration's body
in the destination arena. -/
def inPlaceGlobalVar (fuel : Nat) (m : Module) (s : RwState) (g : Nat) :
    Option (Module × RwState) :=
  match alook m.globalVars g with
  | none => none
  | some dec =>
    match transformUses fuel s dec.body with
    | none => none
    | some (t, s₁) =>
      some ({ m with globalVars := replaceVal m.globalVars g ⟨t.applyTo dec.body⟩ }, s₁)

/-- `in_place_transform_func_decl`: rewrite a queued function's body in the
destination arena. -/
def inPlaceFunc (fuel : Nat) (m : Module) (s : RwState) (f : Nat) :
    Option (Module × RwState) :=
  match alook m.funcs f with
  | none => none
  | some dec =>
    match transformUses fuel s dec.body with
    | none => none
    | some (t, s₁) =>
      some ({ m with funcs := replaceVal m.funcs f ⟨t.applyTo dec.body⟩ }, s₁)

/-- The inner `while let Some(gv) = global_var_queue.pop_front()` loop. -/
def drainGlobalVars (fuel : Nat) : Nat → Module → RwState → Option (Module × RwState)
  | 0, _, _ => none
  | n + 1, m, s =>
    match s.globalVarQueue with
    | [] => some (m, s)
    | g :: rest =>
      match inPlaceGlobalVar fuel m { s with globalVarQueue := rest } g with
      | none => none
      | some (m', s') => drainGlobalVars fuel n m' s'

/-- The inner `while let Some(func) = func_queue.pop_front()` loop. -/
def drainFuncs (fuel : Nat) : Nat → Module → RwState → Option (Module × RwState)
  | 0, _, _ => none
  | n + 1, m, s =>
    match s.funcQueue with
    | [] => some (m, s)
    | f :: rest =>
      match inPlaceFunc fuel m { s with funcQueue := rest } f with
      | none => none
      | some (m', s') => drainFuncs fuel n m' s'

/-- The outer drain loop: while either queue is non-empty, drain the
global-variable queue, then the function queue. -/
def drainAll (fuel : Nat) : Nat → Module → RwState → Option (Module × RwState)
  | 0, _, _ => none
  | n + 1, m, s =>
    if s.globalVarQueue.isEmpty && s.funcQueue.isEmpty then some (m, s)
    else
      match drainGlobalVars fuel fuel m s with
      | none => none
      | some (m₁, s₁) =>
        match drainFuncs fuel fuel m₁ s₁ with
        | none => none
        | some (m₂, s₂) => drainAll fuel n m₂ s₂

/-- `merge(mergee, merged)` from `passes/merge.rs`. Both modules share the
interning context `cx` (the source asserts this identity). Returns the final
state of the destination module and context together with the error, if any;
on a dialect error the destination is untouched, on `DuplicateExportKey` it
keeps every mutation made so far. `freshStart` seeds the context-wide
fresh-handle allocator and `fuel` bounds the graph traversals. -/
def mergeModules (fuel : Nat) (cx : Context) (mergee merged : Module) (freshStart : Nat) :
    Option (Module × Context × Option MergeError) :=
  match makeCompatible mergee.dialect merged.dialect with
  | .error e => some (mergee, cx, some e)
  | .ok resolvedDialect =>
    match collectPhase cx merged mergee freshStart fuel with
    | none => none
    | some c =>
      let mergee₁ : Module := { mergee with globalVars := c.dstGlobalVars, funcs := c.dstFuncs }
      let s₀ : RwState :=
        { cx := cx, fresh := c.fresh,
          resolvedGlobalVars := c.rewriteVar, resolvedFuncs := c.rewriteFunc,
          transformedTypes := [], transformedConsts := [], transformedDataInstForms := [],
          transformedGlobalVars := [], globalVarQueue := [],
          transformedFuncs := [], funcQueue := [] }
      match registerExports fuel s₀ merged.exports mergee₁.exports with
      | none => none
      | some (exps, s₁, some err) => some ({ mergee₁ with exports := exps }, s₁.cx, some err)
      | some (exps, s₁, none) =>
        match drainAll fuel fuel { mergee₁ with exports := exps } s₁ with
        | none => none
        | some (m₂, s₂) => some ({ m₂ with dialect := resolvedDialect }, s₂.cx, none)

/-- The set of declarations reached by a transitive walk, used only to state
reachability facts about concrete inputs. -/
structure ReachSet where
  tys : List Nat
  cts : List Nat
  forms : List Nat
  gvs : List Nat
  fns : List Nat
  deriving DecidableEq, Repr

mutual

/-- Modelled from the spec: one step of the transitive dependency closure of
section 4.2 / the glossary's "Closure (dependency closure)" — the full
transitive set of declarations reachable from a given root set of
references. -/
def reachUse (src : Module) (cx : Context) (fuel : Nat) (r : ReachSet) (u : Use) :
    Option ReachSet :=
  match fuel with
  | 0 => none
  | fuel' + 1 =>
    match u with
    | .ty t =>
      if t ∈ r.tys then some r
      else
        match alook cx.tyDefs t with
        | none => none
        | some d => reachUses src cx fuel' { r with tys := t :: r.tys } d
    | .ct c =>
      if c ∈ r.cts then some r
      else
        match alook cx.ctDefs c with
        | none => none
        | some d => reachUses src cx fuel' { r with cts := c :: r.cts } d
    | .form f =>
      if f ∈ r.forms then some r
      else
        match alook cx.formDefs f with
        | none => none
        | some d => reachUses src cx fuel' { r with forms := f :: r.forms } d
    | .gv g =>
      if g ∈ r.gvs then some r
      else
        match alook src.globalVars g with
        | none => none
        | some dec => reachUses src cx fuel' { r with gvs := g :: r.gvs } dec.body
    | .fn f =>
      if f ∈ r.fns then some r
      else
        match alook src.funcs f with
        | none => none
        | some dec => reachUses src cx fuel' { r with fns := f :: r.fns } dec.body

/-- Walk a list of uses, accumulating the reached set. -/
def reachUses (src : Module) (cx : Context) (fuel : Nat) (r : ReachSet) (l : List Use) :
    Option ReachSet :=
  match fuel with
  | 0 => none
  | fuel' + 1 =>
    match l with
    | [] => some r
    | u :: rest =>
      match reachUse src cx fuel' r u with
      | none => none
      | some r' => reachUses src cx fuel' r' rest

end

/-- Modelled from the spec: the declarations transitively reachable from the
module's exports. -/
def reachableFromExports (cx : Context) (m : Module) (fuel : Nat) : Option ReachSet :=
  reachUses m cx fuel ⟨[], [], [], [], []⟩ (m.exports.map (fun p => exporteeUse p.2))

/-! ## Binary lowering (`spv/lower.rs`) -/

/-- The well-known opcodes consumed from the external instruction
specification table, with their actual SPIR-V values. -/
def opName : Nat := 5
def opMemberName : Nat := 6
def opString : Nat := 7
def opExtension : Nat := 10
def opExtInstImport : Nat := 11
def opMemoryModel : Nat := 14
def opEntryPoint : Nat := 15
def opExecutionMode : Nat := 16
def opCapability : Nat := 17
def opDecorate : Nat := 71
def opMemberDecorate : Nat := 72
def opExecutionModeId : Nat := 331
def opDecorateId : Nat := 332
def opDecorateString : Nat := 5632
def opMemberDecorateString : Nat := 5633

/-- A decoded instruction operand. `Operand::Id` and `Operand::ForwardIdRef`
are treated alike everywhere in lowering, so both are `idRef`. A literal
string occupies one `imm` operand whose value is an atomic code for the
string's content (the external literal-string decoder is not re-modelled). -/
inductive Operand
  | imm (v : Nat)
  | idRef (id : Nat)
  deriving DecidableEq, Repr

/-- A decoded instruction as produced by the module parser: opcode, optional
result-type ID, optional result ID and operand list. -/
structure Inst where
  opcode : Nat
  resultTypeId : Option Nat
  resultId : Option Nat
  operands : List Operand
  deriving DecidableEq, Repr

/-- An attribute deferred for a target ID (`crate::Attr`). -/
inductive Attr
  | spvEntryPoint (params : List Nat) (interfaceIds : List Nat)
  | spvAnnot (opcode : Nat) (params : List Nat)
  deriving DecidableEq, Repr

/-- A definition bound to a SPIR-V ID for later reference resolution. -/
inductive IdDef
  | spvExtInstImport (name : Nat)
  | spvDebugString (s : Nat)
  deriving DecidableEq, Repr

/-- An input of a top-level `Misc` instruction, with IDs resolved against the
`IdDef` table where known. -/
inductive MiscInput
  | spvImm (v : Nat)
  | spvExtInstImport (name : Nat)
  | spvDebugString (s : Nat)
  | spvUntrackedId (id : Nat)
  deriving DecidableEq, Repr

/-- The typed result of a `Misc` instruction. -/
structure MiscOutput where
  resultTypeId : Option Nat
  resultId : Nat
  deriving DecidableEq, Repr

/-- A top-level catch-all instruction record. -/
structure Misc where
  opcode : Nat
  output : Option MiscOutput
  inputs : List MiscInput
  attrs : Option (List Attr)
  deriving DecidableEq, Repr

/-- The instruction-category tags of the section-order state machine, in
their declared (and therefore `PartialOrd`) order. -/
inductive Seq
  | capability
  | extension
  | extInstImport
  | memoryModel
  | entryPoint
  | executionMode
  | debugStringAndSource
  | other
  deriving DecidableEq, Repr

/-- The discriminant of a `Seq` tag: its position in the declared order. -/
def seqTag : Seq → Nat
  | .capability => 0
  | .extension => 1
  | .extInstImport => 2
  | .memoryModel => 3
  | .entryPoint => 4
  | .executionMode => 5
  | .debugStringAndSource => 6
  | .other => 7

/-- `seq <= Some(next)` on `Option<Seq>`: `None` is below everything, and
`Seq`'s derived order compares discriminants. -/
def optSeqLe (prev : Option Seq) (next : Seq) : Bool :=
  match prev with
  | none => true
  | some p => decide (seqTag p ≤ seqTag next)

/-- The lowering failures (each reported as a "malformed SPIR-V module"
`io::Error` in the source; the structured payloads here record what the
formatted message names). `badShape` stands for the source's `assert!` /
`unreachable!` paths on operand shapes. -/
inductive LowerError
  | badMagic
  | badVersionWord (version : Nat)
  | badInstSchema (schema : Nat)
  | zeroIdBound
  | badShape
  | badLiteralString
  | duplicateMemoryModel
  | decorationWithId
  | outOfOrder (next : Seq) (prev : Option Seq)
  | missingMemoryModel
  | orphanIds (ids : List Nat)
  deriving DecidableEq, Repr

/-- Models the external literal-string decoder over the operand list. -/
def extractLiteralString : List Operand → Except LowerError Nat
  | [.imm v] => .ok v
  | _ => .error .badLiteralString

/-- The in-flight state of the lowering loop. -/
structure LowerState where
  dialect : SpvDialect
  seq : Option Seq
  hasMemoryModel : Bool
  pendingAttrs : List (Nat × List Attr)
  idDefs : List (Nat × IdDef)
  topLevel : List Misc
  deriving DecidableEq

/-- `BTreeSet<Attr>::insert`: add the attribute if not already present. -/
def attrInsert (attrs : List Attr) (a : Attr) : List Attr :=
  if a ∈ attrs then attrs else attrs ++ [a]

/-- `pending_attrs.entry(target).or_default().insert(attr)`. -/
def pendingInsert (p : List (Nat × List Attr)) (target : Nat) (a : Attr) :
    List (Nat × List Attr) :=
  match alook p target with
  | some attrs => replaceVal p target (attrInsert attrs a)
  | none => p ++ [(target, [a])]

/-- The positional `OpEntryPoint` operand split: immediates accumulate into
`params` while no interface ID has been seen (the source asserts this), IDs
accumulate into `interface_ids`. -/
def entryPointSplit : List Operand → List Nat → List Nat → Except LowerError (List Nat × List Nat)
  | [], params, ids => .ok (params, ids)
  | .imm i :: rest, params, ids =>
    if ids.isEmpty then entryPointSplit rest (params ++ [i]) ids else .error .badShape
  | .idRef i :: rest, params, ids => entryPointSplit rest params (ids ++ [i])

/-- The trailing parameters of an annotation instruction: immediates only,
any ID-valued operand is the "unsupported decoration with ID" failure. -/
def annotParams : List Operand → Except LowerError (List Nat)
  | [] => .ok []
  | .imm i :: rest =>
    match annotParams rest with
    | .error e => .error e
    | .ok ps => .ok (i :: ps)
  | .idRef _ :: _ => .error .decorationWithId

/-- Whether an opcode is in the execution-mode/name/decoration list of
`lower_from_spv_module_parser`. -/
def isAnnotOpcode (op : Nat) : Bool :=
  op = opExecutionMode || op = opExecutionModeId || op = opName || op = opMemberName ||
  op = opDecorate || op = opMemberDecorate || op = opDecorateId ||
  op = opDecorateString || op = opMemberDecorateString

/-- Whether an opcode is handled by any branch before the catch-all "other"
branch. -/
def isSpecialOpcode (op : Nat) : Bool :=
  op = opCapability || op = opExtension || op = opExtInstImport || op = opMemoryModel ||
  op = opString || op = opEntryPoint || isAnnotOpcode op

/-- The inputs of a catch-all instruction: immediates kept, IDs resolved
against the `IdDef` table where known, otherwise preserved as untracked. -/
def miscInputs (idDefs : List (Nat × IdDef)) (ops : List Operand) : List MiscInput :=
  ops.map fun op =>
    match op with
    | .imm i => .spvImm i
    | .idRef id =>
      match alook idDefs id with
      | some (.spvExtInstImport n) => .spvExtInstImport n
      | some (.spvDebugString d) => .spvDebugString d
      | none => .spvUntrackedId id

/-- The per-instruction classification of `lower_from_spv_module_parser`:
dispatch on the opcode, apply the instruction's side effects to the state and
return the instruction's `Seq` category. The section-order check happens
afterwards, in `lowerStep`. -/
def lowerClassify (s : LowerState) (inst : Inst) : Except LowerError (Seq × LowerState) :=
  if inst.opcode = opCapability then
    if inst.resultTypeId ≠ none ∨ inst.resultId ≠ none then .error .badShape
    else
      match inst.operands with
      | [.imm cap] =>
        .ok (.capability,
          { s with dialect := { s.dialect with
              capabilities := insert cap s.dialect.capabilities } })
      | _ => .error .badShape
  else if inst.opcode = opExtension then
    if inst.resultTypeId ≠ none ∨ inst.resultId ≠ none then .error .badShape
    else
      match extractLiteralString inst.operands with
      | .error e => .error e
      | .ok ext =>
        .ok (.extension,
          { s with dialect := { s.dialect with
              extensions := insert ext s.dialect.extensions } })
  else if inst.opcode = opExtInstImport then
    if inst.resultTypeId ≠ none then .error .badShape
    else
      match inst.resultId with
      | none => .error .badShape
      | some id =>
        match extractLiteralString inst.operands with
        | .error e => .error e
        | .ok name =>
          .ok (.extInstImport,
            { s with idDefs := (insertMap s.idDefs id (.spvExtInstImport name)).2 })
  else if inst.opcode = opMemoryModel then
    if inst.resultTypeId ≠ none ∨ inst.resultId ≠ none then .error .badShape
    else
      match inst.operands with
      | [.imm am, .imm mm] =>
        if s.hasMemoryModel then .error .duplicateMemoryModel
        else
          .ok (.memoryModel,
            { s with hasMemoryModel := true,
                     dialect := { s.dialect with addressingModel := am, memoryModel := mm } })
      | _ => .error .badShape
  else if inst.opcode = opString then
    if inst.resultTypeId ≠ none then .error .badShape
    else
      match inst.resultId with
      | none => .error .badShape
      | some id =>
        match extractLiteralString inst.operands with
        | .error e => .error e
        | .ok str =>
          .ok (.debugStringAndSource,
            { s with idDefs := (insertMap s.idDefs id (.spvDebugString str)).2 })
  else if inst.opcode = opEntryPoint then
    if inst.resultTypeId ≠ none ∨ inst.resultId ≠ none then .error .badShape
    else
      match inst.operands with
      | op0 :: op1 :: rest =>
        match op1 with
        | .idRef target =>
          match entryPointSplit (op0 :: rest) [] [] with
          | .error e => .error e
          | .ok (params, interfaceIds) =>
            .ok (.entryPoint,
              { s with pendingAttrs :=
                  pendingInsert s.pendingAttrs target (.spvEntryPoint params interfaceIds) })
        | _ => .error .badShape
      | _ => .error .badShape
  else if isAnnotOpcode inst.opcode then
    if inst.resultTypeId ≠ none ∨ inst.resultId ≠ none then .error .badShape
    else
      match inst.operands with
      | .idRef target :: rest =>
        match annotParams rest with
        | .error e => .error e
        | .ok params =>
          .ok (if inst.opcode = opExecutionMode ∨ inst.opcode = opExecutionModeId then
                 .executionMode
               else .other,
            { s with pendingAttrs :=
                pendingInsert s.pendingAttrs target (.spvAnnot inst.opcode params) })
      | _ => .error .badShape
  else
    .ok (.other,
      { s with
        topLevel := s.topLevel ++
          [{ opcode := inst.opcode,
             output := inst.resultId.map (fun rid => ⟨inst.resultTypeId, rid⟩),
             inputs := miscInputs s.idDefs inst.operands,
             attrs := inst.resultId.bind (fun rid => alook s.pendingAttrs rid) }],
        pendingAttrs :=
          match inst.resultId with
          | some rid => removeKey s.pendingAttrs rid
          | none => s.pendingAttrs })

/-- One iteration of the lowering loop: classify the instruction (applying
its effects), then enforce `seq <= Some(next_seq)`, failing with the
out-of-order error that names both categories. -/
def lowerStep (s : LowerState) (inst : Inst) : Except LowerError LowerState :=
  match lowerClassify s inst with
  | .error e => .error e
  | .ok (next, s₁) =>
    if optSeqLe s.seq next then .ok { s₁ with seq := some next }
    else .error (.outOfOrder next s.seq)

/-- The full instruction loop. -/
def lowerInsts : LowerState → List Inst → Except LowerError LowerState
  | s, [] => .ok s
  | s, i :: rest =>
    match lowerStep s i with
    | .error e => .error e
    | .ok s' => lowerInsts s' rest

/-- Insertion into a sorted list of IDs. -/
def insertSorted (x : Nat) : List Nat → List Nat
  | [] => [x]
  | y :: ys => if x ≤ y then x :: y :: ys else y :: insertSorted x ys

/-- The ascending order a `BTreeSet` of IDs iterates in. -/
def sortNat (l : List Nat) : List Nat := l.foldr insertSorted []

/-- The orphan IDs of the deferred-attribute table, in the order the error
message lists them. -/
def sortedKeys (p : List (Nat × List Attr)) : List Nat := sortNat (p.map Prod.fst)

/-- The lowered module: its dialect and top-level instruction list. -/
structure LowerResult where
  dialect : ModuleDialect
  topLevel : List Misc
  deriving DecidableEq

/-- The post-loop checks: exactly one memory model must have been seen, and
the deferred-attribute table must be empty — any leftover entry is an ID that
was decorated but never defined, reported with the sorted orphan-ID list. -/
def lowerFinish (s : LowerState) : Except LowerError LowerResult :=
  if s.hasMemoryModel = false then .error .missingMemoryModel
  else if ¬ s.pendingAttrs.isEmpty then .error (.orphanIds (sortedKeys s.pendingAttrs))
  else .ok ⟨.spv s.dialect, s.topLevel⟩

/-- The SPIR-V magic number the parser has already validated (the source
re-asserts it). -/
def spvMagic : Nat := 0x07230203

/-- Header decoding from `lower_from_spv_module_parser`: the five words are
`[magic, version, generator_magic, id_bound, reserved_inst_schema]`. The
version word's big-endian bytes must be `(0, major, minor, 0)`, the schema
word must be zero and the ID bound nonzero. The `badMagic` branch stands for
the source's `assert_eq!` on the already-validated magic. -/
def lowerHeader (magic version generatorMagic idBound reservedInstSchema : Nat) :
    Except LowerError SpvDialect :=
  if magic ≠ spvMagic then .error .badMagic
  else
    let versionReservedHi := version / 2 ^ 24 % 2 ^ 8
    let versionMajor := version / 2 ^ 16 % 2 ^ 8
    let versionMinor := version / 2 ^ 8 % 2 ^ 8
    let versionReservedLo := version % 2 ^ 8
    if versionReservedLo ≠ 0 ∨ versionReservedHi ≠ 0 then .error (.badVersionWord version)
    else if reservedInstSchema ≠ 0 then .error (.badInstSchema reservedInstSchema)
    else if idBound = 0 then .error .zeroIdBound
    else
      .ok { versionMajor := versionMajor, versionMinor := versionMinor,
            originalGeneratorMagic := generatorMagic, originalIdBound := idBound,
            capabilities := ∅, extensions := ∅,
            addressingModel := 0, memoryModel := 0 }

/-- `Module::lower_from_spv_module_parser`: validate the header, run the
instruction loop from the empty state, then the post-loop checks. -/
def lowerModule (magic version generatorMagic idBound reservedInstSchema : Nat)
    (insts : List Inst) : Except LowerError LowerResult :=
  match lowerHeader magic version generatorMagic idBound reservedInstSchema with
  | .error e => .error e
  | .ok d =>
    match lowerInsts
        { dialect := d, seq := none, hasMemoryModel := false,
          pendingAttrs := [], idDefs := [], topLevel := [] } insts with
    | .error e => .error e
    | .ok s => lowerFinish s

/-- A rewrite chain of a resolved-handle map: consecutive entries are linked
by the map and the final entry has no mapping (it is the fixed point the
rewrite of the first entry reaches). -/
def isChain (m : List (Nat × Nat)) : List Nat → Bool
  | [] => false
  | [a] => (alook m a).isNone
  | a :: b :: rest => alook m a == some b && isChain m (b :: rest)

/-- The memoization-cache entries deposited by rewriting a chain: every link
caches the chain's final handle as its transform result, the final handle
itself caches `unchanged`. -/
def chainEntries (final : Nat) : List Nat → List (Nat × Transformed Nat)
  | [] => []
  | [a] => [(a, .unchanged)]
  | a :: b :: rest => (a, Transformed.changed final) :: chainEntries final (b :: rest)

/-! ## Concrete inputs used by the per-claim instances -/

/-- A context with a single interned type (handle 7, empty definition). -/
def cxC1 : Context := ⟨[(7, [])], [], []⟩

/-- A dialect shared by the concrete merge inputs. -/
def dialC1 : ModuleDialect := .spv ⟨1, 0, 0, 1, ∅, ∅, 0, 0⟩

/-- Merged module for the closure-invariant failing input: one export,
function 0 (empty body); functions 1 and 2 are unreachable from the export,
and the unreachable function 1 references the unreachable function 2. -/
def mergedC1 : Module :=
  { dialect := dialC1,
    exports := [("E", .fn 0)],
    globalVars := [],
    funcs := [(0, ⟨[]⟩), (1, ⟨[.fn 2]⟩), (2, ⟨[.ty 7]⟩)] }

/-- An empty destination module. -/
def mergeeC1 : Module := { dialect := dialC1, exports := [], globalVars := [], funcs := [] }

/-- Merged module for the copy-count failing input: the same function is
exported under three keys, so its handle is encountered three times during
the export pass alone. -/
def mergedC2 : Module :=
  { dialect := dialC1,
    exports := [("a", .fn 0), ("b", .fn 0), ("c", .fn 0)],
    globalVars := [],
    funcs := [(0, ⟨[]⟩)] }

/-- Destination module that already exports "main" (as function 5). -/
def mergeeC4 : Module :=
  { dialect := dialC1, exports := [("main", .fn 5)], globalVars := [], funcs := [(5, ⟨[]⟩)] }

/-- Merged module that also exports "main" (as function 0). -/
def mergedC4 : Module :=
  { dialect := dialC1, exports := [("main", .fn 0)], globalVars := [], funcs := [(0, ⟨[]⟩)] }

/-- A rewriter state whose resolved global-variable map is the two-step chain
1 ↦ 2 ↦ 3. -/
def rwChainState : RwState :=
  { cx := ⟨[], [], []⟩, fresh := 0,
    resolvedGlobalVars := [(1, 2), (2, 3)], resolvedFuncs := [],
    transformedTypes := [], transformedConsts := [], transformedDataInstForms := [],
    transformedGlobalVars := [], globalVarQueue := [],
    transformedFuncs := [], funcQueue := [] }

/-! ## Theorems -/

/-- C6: for every pair of module dialects, resolution fails with the
memory-model mismatch when the memory models differ; with the
addressing-model mismatch when the memory models agree but the addressing
models differ; and, when both agree but the versions differ, with the version
mismatch carrying the destination's (major, minor) pair as `mergee` and the
source's as `merged` — in particular merging a dialect of version (1,5) into
one of version (1,3) fails with `VersionMissmatch {mergee := (1,3), merged :=
(1,5)}`. -/
theorem c6_dialect_mismatch_errors (a b : SpvDialect) :
    (a.memoryModel ≠ b.memoryModel →
      makeCompatible (.spv a) (.spv b) = .error .memoryModelMissmatch) ∧
    (a.memoryModel = b.memoryModel → a.addressingModel ≠ b.addressingModel →
      makeCompatible (.spv a) (.spv b) = .error .addressingModelMissmatch) ∧
    (a.memoryModel = b.memoryModel → a.addressingModel = b.addressingModel →
      (a.versionMajor ≠ b.versionMajor ∨ a.versionMinor ≠ b.versionMinor) →
      makeCompatible (.spv a) (.spv b) =
        .error (.versionMissmatch (a.versionMajor, a.versionMinor)
          (b.versionMajor, b.versionMinor))) ∧
    makeCompatible (.spv ⟨1, 3, 0, 1, ∅, ∅, 0, 0⟩) (.spv ⟨1, 5, 0, 1, ∅, ∅, 0, 0⟩) =
      .error (.versionMissmatch (1, 3) (1, 5)) := by
  refine ⟨?_, ?_, ?_, ?_⟩
  · intro h
    simp [makeCompatible, h]
  · intro h1 h2
    simp [makeCompatible, h1, h2]
  · intro h1 h2 h3
    simp only [makeCompatible, h1, h2, ne_eq, not_true_eq_false, if_false, ite_not]
    split
    · next hv =>
      rcases h3 with h3 | h3 <;> simp_all
    · rfl
  · decide

/-- C6 witness: the theorem applied at concrete dialects that differ in the
memory model. -/
theorem c6_dialect_mismatch_errors_witness :
    makeCompatible (.spv ⟨1, 0, 0, 1, ∅, ∅, 0, 0⟩) (.spv ⟨1, 0, 0, 1, ∅, ∅, 0, 1⟩) =
      .error .memoryModelMissmatch :=
  (c6_dialect_mismatch_errors ⟨1, 0, 0, 1, ∅, ∅, 0, 0⟩ ⟨1, 0, 0, 1, ∅, ∅, 0, 1⟩).1 (by decide)

/-- C7: on success, dialect resolution returns the first dialect with the
second's capability and extension sets unioned in; resolving a dialect with
itself returns it unchanged; resolving the result with the second input again
returns the result unchanged (idempotence); the capability and extension sets
of the result do not depend on the argument order; and resolving capability
sets {0,1} and {1,2} yields {0,1,2}. -/
theorem c7_dialect_union (a b : SpvDialect)
    (hmm : a.memoryModel = b.memoryModel)
    (ham : a.addressingModel = b.addressingModel)
    (hvM : a.versionMajor = b.versionMajor)
    (hvm : a.versionMinor = b.versionMinor) :
    makeCompatible (.spv a) (.spv b) =
      .ok (.spv { a with capabilities := a.capabilities ∪ b.capabilities,
                         extensions := a.extensions ∪ b.extensions }) ∧
    makeCompatible (.spv a) (.spv a) = .ok (.spv a) ∧
    (∀ c, makeCompatible (.spv a) (.spv b) = .ok c → makeCompatible c (.spv b) = .ok c) ∧
    (∀ x y, makeCompatible (.spv a) (.spv b) = .ok (.spv x) →
        makeCompatible (.spv b) (.spv a) = .ok (.spv y) →
        x.capabilities = y.capabilities ∧ x.extensions = y.extensions) ∧
    makeCompatible (.spv ⟨1, 0, 0, 1, {0, 1}, ∅, 0, 0⟩) (.spv ⟨1, 0, 0, 1, {1, 2}, ∅, 0, 0⟩) =
      .ok (.spv ⟨1, 0, 0, 1, {0, 1, 2}, ∅, 0, 0⟩) := by
  have hok : makeCompatible (.spv a) (.spv b) =
      .ok (.spv { a with capabilities := a.capabilities ∪ b.capabilities,
                         extensions := a.extensions ∪ b.extensions }) := by
    simp [makeCompatible, hmm, ham, hvM, hvm]
  refine ⟨hok, ?_, ?_, ?_, ?_⟩
  · simp [makeCompatible]
  · intro c hc
    rw [hok] at hc
    cases hc
    simp [makeCompatible, hmm, ham, hvM, hvm, Finset.union_assoc]
  · intro x y hx hy
    rw [hok] at hx
    have hok2 : makeCompatible (.spv b) (.spv a) =
        .ok (.spv { b with capabilities := b.capabilities ∪ a.capabilities,
                           extensions := b.extensions ∪ a.extensions }) := by
      simp [makeCompatible, hmm.symm, ham.symm, hvM.symm, hvm.symm]
    rw [hok2] at hy
    cases hx
    cases hy
    exact ⟨Finset.union_comm _ _, Finset.union_comm _ _⟩
  · decide

/-- C7 witness: the theorem applied at two concrete compatible dialects. -/
theorem c7_dialect_union_witness :
    makeCompatible (.spv ⟨1, 0, 0, 1, {0, 1}, ∅, 0, 0⟩) (.spv ⟨1, 0, 0, 1, {1, 2}, ∅, 0, 0⟩) =
      .ok (.spv ⟨1, 0, 0, 1, {0, 1, 2}, ∅, 0, 0⟩) :=
  (c7_dialect_union ⟨1, 0, 0, 1, {0, 1}, ∅, 0, 0⟩ ⟨1, 0, 0, 1, {1, 2}, ∅, 0, 0⟩
    rfl rfl rfl rfl).2.2.2.2

/-- C8: for every five-word header (with the parser-validated magic),
lowering fails when the version word's first or last big-endian byte is
nonzero, when the reserved instruction-schema word is nonzero, or when the ID
bound is zero; otherwise it succeeds and decodes the version word as
(0, major, minor, 0) in big-endian byte order — so version word 0x00010500
yields major 1 and minor 5. -/
theorem c8_header_validation (version generatorMagic idBound schema : Nat) :
    ((version / 2 ^ 24 % 2 ^ 8 ≠ 0 ∨ version % 2 ^ 8 ≠ 0) →
      lowerHeader spvMagic version generatorMagic idBound schema =
        .error (.badVersionWord version)) ∧
    (version / 2 ^ 24 % 2 ^ 8 = 0 → version % 2 ^ 8 = 0 → schema ≠ 0 →
      lowerHeader spvMagic version generatorMagic idBound schema =
        .error (.badInstSchema schema)) ∧
    (version / 2 ^ 24 % 2 ^ 8 = 0 → version % 2 ^ 8 = 0 → schema = 0 → idBound = 0 →
      lowerHeader spvMagic version generatorMagic idBound schema = .error .zeroIdBound) ∧
    (version / 2 ^ 24 % 2 ^ 8 = 0 → version % 2 ^ 8 = 0 → schema = 0 → idBound ≠ 0 →
      lowerHeader spvMagic version generatorMagic idBound schema =
        .ok { versionMajor := version / 2 ^ 16 % 2 ^ 8,
              versionMinor := version / 2 ^ 8 % 2 ^ 8,
              originalGeneratorMagic := generatorMagic, originalIdBound := idBound,
              capabilities := ∅, extensions := ∅,
              addressingModel := 0, memoryModel := 0 }) ∧
    lowerHeader spvMagic 0x00010500 generatorMagic 1 0 =
      .ok { versionMajor := 1, versionMinor := 5,
            originalGeneratorMagic := generatorMagic, originalIdBound := 1,
            capabilities := ∅, extensions := ∅,
            addressingModel := 0, memoryModel := 0 } := by
  refine ⟨?_, ?_, ?_, ?_, ?_⟩
  · intro h
    rcases h with h | h <;> [norm_num at h; norm_num at h] <;> simp [lowerHeader, h]
  · intro h1 h2 h3
    norm_num at h1 h2
    simp [lowerHeader, h1, h2, h3]
  · intro h1 h2 h3 h4
    norm_num at h1 h2
    simp [lowerHeader, h1, h2, h3, h4]
  · intro h1 h2 h3 h4
    norm_num at h1 h2
    simp [lowerHeader, h1, h2, h3, h4]
  · simp [lowerHeader]

/-- C8 witness: the theorem applied at the concrete header of the spec's
round-trip example. -/
theorem c8_header_validation_witness :
    lowerHeader spvMagic 0x00010500 7 1 0 =
      .ok { versionMajor := 1, versionMinor := 5,
            originalGeneratorMagic := 7, originalIdBound := 1,
            capabilities := ∅, extensions := ∅,
            addressingModel := 0, memoryModel := 0 } :=
  (c8_header_validation 0x00010500 7 1 0).2.2.2.2

/-- C9: each instruction is classified into a category of the ordered list
Capability < Extension < ExtInstImport < MemoryModel < EntryPoint <
ExecutionMode < DebugStringAndSource < Other, and whenever an instruction's
own effects succeed the step fails — with the out-of-order error naming both
categories — exactly when its tag is strictly below the previous
instruction's tag. In particular a stream with OpExtension after
OpMemoryModel fails with the out-of-order error, while the same instructions
in canonical order lower successfully. -/
theorem c9_section_order :
    (∀ s inst next s₁, lowerClassify s inst = .ok (next, s₁) →
      ((lowerStep s inst = .error (.outOfOrder next s.seq)) ↔ optSeqLe s.seq next = false) ∧
      (optSeqLe s.seq next = true → lowerStep s inst = .ok { s₁ with seq := some next })) ∧
    (∀ p n : Seq, optSeqLe (some p) n = false ↔ seqTag n < seqTag p) ∧
    (seqTag .capability < seqTag .extension ∧ seqTag .extension < seqTag .extInstImport ∧
     seqTag .extInstImport < seqTag .memoryModel ∧ seqTag .memoryModel < seqTag .entryPoint ∧
     seqTag .entryPoint < seqTag .executionMode ∧
     seqTag .executionMode < seqTag .debugStringAndSource ∧
     seqTag .debugStringAndSource < seqTag .other) ∧
    lowerModule spvMagic 0x00010000 0 1 0
      [⟨opMemoryModel, none, none, [.imm 0, .imm 0]⟩,
       ⟨opExtension, none, none, [.imm 42]⟩] =
      .error (.outOfOrder .extension (some .memoryModel)) ∧
    lowerModule spvMagic 0x00010000 0 1 0
      [⟨opExtension, none, none, [.imm 42]⟩,
       ⟨opMemoryModel, none, none, [.imm 0, .imm 0]⟩] =
      .ok ⟨.spv ⟨1, 0, 0, 1, ∅, {42}, 0, 0⟩, []⟩ := by
  refine ⟨?_, ?_, by decide, by decide, by decide⟩
  · intro s inst next s₁ h
    unfold lowerStep
    rw [h]
    cases hle : optSeqLe s.seq next <;> simp [hle]
  · intro p n
    cases p <;> cases n <;> decide

/-- C9 witness: the step theorem applied at a concrete state whose previous
category is MemoryModel and a concrete OpExtension instruction. -/
theorem c9_section_order_witness :
    lowerStep
      ⟨⟨1, 0, 0, 1, ∅, ∅, 0, 0⟩, some .memoryModel, true, [], [], []⟩
      ⟨opExtension, none, none, [.imm 42]⟩ =
      .error (.outOfOrder .extension (some .memoryModel)) :=
  ((c9_section_order.1
      ⟨⟨1, 0, 0, 1, ∅, ∅, 0, 0⟩, some .memoryModel, true, [], [], []⟩
      ⟨opExtension, none, none, [.imm 42]⟩ .extension
      ⟨⟨1, 0, 0, 1, ∅, {42}, 0, 0⟩, some .memoryModel, true, [], [], []⟩
      (by decide)).1).mpr (by decide)

/-- C10: when a catch-all ("other") instruction defining a result ID is
decoded, the attributes pending for that ID are removed from the deferred
table and attached to the new top-level record; annotation instructions
accumulate into the table keyed by their target ID; once the stream has been
processed (with a memory model present), lowering fails with the error
listing the sorted orphan IDs exactly when the table is non-empty. An
OpDecorate whose target is never defined makes the concrete stream fail
naming that ID, while adding the definition or removing the decoration makes
it succeed. -/
theorem c10_deferred_attrs :
    (∀ (s : LowerState) (op : Nat) (rty : Option Nat) (rid : Nat) (ops : List Operand),
      isSpecialOpcode op = false →
      lowerClassify s ⟨op, rty, some rid, ops⟩ =
        .ok (.other,
          { s with
            topLevel := s.topLevel ++
              [⟨op, some ⟨rty, rid⟩, miscInputs s.idDefs ops, alook s.pendingAttrs rid⟩],
            pendingAttrs := removeKey s.pendingAttrs rid })) ∧
    (∀ (s : LowerState) (op target : Nat) (rest : List Operand) (params : List Nat),
      isAnnotOpcode op = true → annotParams rest = .ok params →
      lowerClassify s ⟨op, none, none, .idRef target :: rest⟩ =
        .ok (if op = opExecutionMode ∨ op = opExecutionModeId then .executionMode else .other,
          { s with pendingAttrs := pendingInsert s.pendingAttrs target (.spvAnnot op params) })) ∧
    (∀ s : LowerState, s.hasMemoryModel = true →
      ((lowerFinish s = .error (.orphanIds (sortedKeys s.pendingAttrs))) ↔
        s.pendingAttrs ≠ []) ∧
      (s.pendingAttrs = [] → lowerFinish s = .ok ⟨.spv s.dialect, s.topLevel⟩)) ∧
    lowerModule spvMagic 0x00010000 0 1 0
      [⟨opMemoryModel, none, none, [.imm 0, .imm 0]⟩,
       ⟨opDecorate, none, none, [.idRef 5, .imm 1]⟩] =
      .error (.orphanIds [5]) ∧
    lowerModule spvMagic 0x00010000 0 1 0
      [⟨opMemoryModel, none, none, [.imm 0, .imm 0]⟩,
       ⟨opDecorate, none, none, [.idRef 5, .imm 1]⟩,
       ⟨100, none, some 5, []⟩] =
      .ok ⟨.spv ⟨1, 0, 0, 1, ∅, ∅, 0, 0⟩,
           [⟨100, some ⟨none, 5⟩, [], some [.spvAnnot opDecorate [1]]⟩]⟩ ∧
    lowerModule spvMagic 0x00010000 0 1 0
      [⟨opMemoryModel, none, none, [.imm 0, .imm 0]⟩,
       ⟨100, none, some 5, []⟩] =
      .ok ⟨.spv ⟨1, 0, 0, 1, ∅, ∅, 0, 0⟩, [⟨100, some ⟨none, 5⟩, [], none⟩]⟩ := by
  refine ⟨?_, ?_, ?_, by decide, by decide, by decide⟩
  · intro s op rty rid ops h
    simp only [isSpecialOpcode, isAnnotOpcode, Bool.or_eq_false_iff,
      decide_eq_false_iff_not] at h
    simp [lowerClassify, isAnnotOpcode, h]
  · intro s op target rest params h hp
    simp only [isAnnotOpcode, Bool.or_eq_true, decide_eq_true_eq] at h
    rcases h with ((((((((h | h) | h) | h) | h) | h) | h) | h) | h) <;> subst h <;>
      simp [lowerClassify, opName, opMemberName, opString, opExtension, opExtInstImport,
        opMemoryModel, opEntryPoint, opExecutionMode, opCapability, opDecorate,
        opMemberDecorate, opExecutionModeId, opDecorateId, opDecorateString,
        opMemberDecorateString, isAnnotOpcode, hp]
  · intro s h
    constructor
    · cases hp : s.pendingAttrs <;> simp [lowerFinish, h, hp]
    · intro hp
      simp [lowerFinish, h, hp]

/-- C10 witness: the attach clause applied at a concrete state with one
pending attribute for ID 5 and a concrete defining instruction. -/
theorem c10_deferred_attrs_witness :
    lowerClassify
      ⟨⟨1, 0, 0, 1, ∅, ∅, 0, 0⟩, some .memoryModel, true,
        [(5, [.spvAnnot opDecorate [1]])], [], []⟩
      ⟨100, none, some 5, []⟩ =
      .ok (.other,
        { dialect := ⟨1, 0, 0, 1, ∅, ∅, 0, 0⟩, seq := some .memoryModel,
          hasMemoryModel := true,
          pendingAttrs :=
            removeKey [(5, [.spvAnnot opDecorate [1]])] 5,
          idDefs := [],
          topLevel := [⟨100, some ⟨none, 5⟩, miscInputs [] [],
            alook [(5, [.spvAnnot opDecorate [1]])] 5⟩] }) := by
  have h := c10_deferred_attrs.1
    ⟨⟨1, 0, 0, 1, ∅, ∅, 0, 0⟩, some .memoryModel, true,
      [(5, [.spvAnnot opDecorate [1]])], [], []⟩
    100 none 5 [] (by decide)
  simpa using h

/-- Rewriting a global-variable reference follows the resolved map until its
fixed point: the final chain handle is the result (unchanged when the
reference itself has no mapping), it is enqueued for the in-place fixup pass,
and every chain link is memoized. -/
theorem transformUse_gv_chain :
    ∀ (rest : List Nat) (g z : Nat) (s : RwState) (fuel : Nat),
      isChain s.resolvedGlobalVars (g :: rest) = true →
      (∀ x ∈ g :: rest, alook s.transformedGlobalVars x = none) →
      (g :: rest).getLast? = some z →
      (g :: rest).length ≤ fuel →
      transformUse fuel s (.gv g) =
        some ((if rest.isEmpty then .unchanged else .changed z : Transformed Nat),
          { s with
            transformedGlobalVars := chainEntries z (g :: rest) ++ s.transformedGlobalVars,
            globalVarQueue := s.globalVarQueue ++ [z] }) := by
  intro rest
  induction rest with
  | nil =>
    intro g z s fuel hchain hmiss hlast hfuel
    obtain ⟨f, rfl⟩ : ∃ f, fuel = f + 1 := by
      cases fuel with
      | zero => simp at hfuel
      | succ f => exact ⟨f, rfl⟩
    have hz : g = z := by simpa using hlast
    subst hz
    have hres : alook s.resolvedGlobalVars g = none := by
      simpa [isChain, Option.isNone_iff_eq_none] using hchain
    have hm : alook s.transformedGlobalVars g = none := hmiss g (by simp)
    simp [transformUse, hm, hres, chainEntries]
  | cons b rest' ih =>
    intro g z s fuel hchain hmiss hlast hfuel
    obtain ⟨f, rfl⟩ : ∃ f, fuel = f + 1 := by
      cases fuel with
      | zero => simp at hfuel
      | succ f => exact ⟨f, rfl⟩
    simp only [isChain, Bool.and_eq_true, beq_iff_eq] at hchain
    obtain ⟨hgb, hchain'⟩ := hchain
    have hlast' : (b :: rest').getLast? = some z := by
      simpa [List.getLast?_cons_cons] using hlast
    have hmiss' : ∀ x ∈ b :: rest', alook s.transformedGlobalVars x = none := by
      intro x hx
      exact hmiss x (by simp [hx])
    have hfuel' : (b :: rest').length ≤ f := by
      simp only [List.length_cons] at hfuel ⊢
      omega
    have hrec := ih b z s f hchain' hmiss' hlast' hfuel'
    have hmg : alook s.transformedGlobalVars g = none := hmiss g (by simp)
    have happ :
        (if rest' = [] then (Transformed.unchanged : Transformed Nat)
          else .changed z).applyTo b = z := by
      cases rest' with
      | nil =>
        have hb : b = z := by simpa using hlast'
        simp [Transformed.applyTo, hb]
      | cons c t => simp [Transformed.applyTo]
    simp [transformUse, hmg, hgb, hrec, happ, chainEntries]

/-- The function-handle twin of the chain lemma. -/
theorem transformUse_fn_chain :
    ∀ (rest : List Nat) (g z : Nat) (s : RwState) (fuel : Nat),
      isChain s.resolvedFuncs (g :: rest) = true →
      (∀ x ∈ g :: rest, alook s.transformedFuncs x = none) →
      (g :: rest).getLast? = some z →
      (g :: rest).length ≤ fuel →
      transformUse fuel s (.fn g) =
        some ((if rest.isEmpty then .unchanged else .changed z : Transformed Nat),
          { s with
            transformedFuncs := chainEntries z (g :: rest) ++ s.transformedFuncs,
            funcQueue := s.funcQueue ++ [z] }) := by
  intro rest
  induction rest with
  | nil =>
    intro g z s fuel hchain hmiss hlast hfuel
    obtain ⟨f, rfl⟩ : ∃ f, fuel = f + 1 := by
      cases fuel with
      | zero => simp at hfuel
      | succ f => exact ⟨f, rfl⟩
    have hz : g = z := by simpa using hlast
    subst hz
    have hres : alook s.resolvedFuncs g = none := by
      simpa [isChain, Option.isNone_iff_eq_none] using hchain
    have hm : alook s.transformedFuncs g = none := hmiss g (by simp)
    simp [transformUse, hm, hres, chainEntries]
  | cons b rest' ih =>
    intro g z s fuel hchain hmiss hlast hfuel
    obtain ⟨f, rfl⟩ : ∃ f, fuel = f + 1 := by
      cases fuel with
      | zero => simp at hfuel
      | succ f => exact ⟨f, rfl⟩
    simp only [isChain, Bool.and_eq_true, beq_iff_eq] at hchain
    obtain ⟨hgb, hchain'⟩ := hchain
    have hlast' : (b :: rest').getLast? = some z := by
      simpa [List.getLast?_cons_cons] using hlast
    have hmiss' : ∀ x ∈ b :: rest', alook s.transformedFuncs x = none := by
      intro x hx
      exact hmiss x (by simp [hx])
    have hfuel' : (b :: rest').length ≤ f := by
      simp only [List.length_cons] at hfuel ⊢
      omega
    have hrec := ih b z s f hchain' hmiss' hlast' hfuel'
    have hmg : alook s.transformedFuncs g = none := hmiss g (by simp)
    have happ :
        (if rest' = [] then (Transformed.unchanged : Transformed Nat)
          else .changed z).applyTo b = z := by
      cases rest' with
      | nil =>
        have hb : b = z := by simpa using hlast'
        simp [Transformed.applyTo, hb]
      | cons c t => simp [Transformed.applyTo]
    simp [transformUse, hmg, hgb, hrec, happ, chainEntries]

/-- C3: for a global-variable or function reference not yet memoized, if the
closure recorded a destination handle the rewriter substitutes it and chases
the resolved map through the substituted handles to its fixed point `z`,
returning `changed z` and enqueuing `z` for the later in-place fixup pass;
if no mapping exists the reference is reported unchanged and the handle
itself is enqueued for the in-place fixup pass (the `rest = []` case of each
clause). -/
theorem c3_arena_rewrite :
    (∀ (rest : List Nat) (g z : Nat) (s : RwState) (fuel : Nat),
      isChain s.resolvedGlobalVars (g :: rest) = true →
      (∀ x ∈ g :: rest, alook s.transformedGlobalVars x = none) →
      (g :: rest).getLast? = some z →
      (g :: rest).length ≤ fuel →
      transformUse fuel s (.gv g) =
        some ((if rest.isEmpty then .unchanged else .changed z : Transformed Nat),
          { s with
            transformedGlobalVars := chainEntries z (g :: rest) ++ s.transformedGlobalVars,
            globalVarQueue := s.globalVarQueue ++ [z] })) ∧
    (∀ (rest : List Nat) (g z : Nat) (s : RwState) (fuel : Nat),
      isChain s.resolvedFuncs (g :: rest) = true →
      (∀ x ∈ g :: rest, alook s.transformedFuncs x = none) →
      (g :: rest).getLast? = some z →
      (g :: rest).length ≤ fuel →
      transformUse fuel s (.fn g) =
        some ((if rest.isEmpty then .unchanged else .changed z : Transformed Nat),
          { s with
            transformedFuncs := chainEntries z (g :: rest) ++ s.transformedFuncs,
            funcQueue := s.funcQueue ++ [z] })) :=
  ⟨transformUse_gv_chain, transformUse_fn_chain⟩

/-- C3 witness: the chain clause applied to the concrete two-step chain
1 ↦ 2 ↦ 3 — the reference to 1 is rewritten to the fixed point 3, the chain
is memoized and 3 is enqueued. -/
theorem c3_arena_rewrite_witness :
    transformUse 3 rwChainState (.gv 1) =
      some (.changed 3,
        { rwChainState with
          transformedGlobalVars := [(1, .changed 3), (2, .changed 3), (3, .unchanged)],
          globalVarQueue := [3] }) := by
  have h := c3_arena_rewrite.1 [2, 3] 1 3 rwChainState 3
    (by decide) (by decide) (by decide) (by decide)
  simpa [chainEntries, rwChainState] using h

/-- Looking up a key present in the front part of an appended map. -/
theorem alook_append_of_some {κ α : Type} [DecidableEq κ] {m : List (κ × α)} {k : κ} {v : α}
    (n : List (κ × α)) (h : alook m k = some v) : alook (m ++ n) k = some v := by
  induction m with
  | nil => simp [alook] at h
  | cons p rest ih =>
    obtain ⟨k1, v1⟩ := p
    by_cases hk : k1 = k
    · simp only [alook, if_pos hk] at h
      simp [alook, hk, h]
    · simp only [alook, if_neg hk] at h ⊢
      exact ih h

/-- Looking up a key absent from the front part of an appended map. -/
theorem alook_append_of_none {κ α : Type} [DecidableEq κ] {m : List (κ × α)} {k : κ}
    (n : List (κ × α)) (h : alook m k = none) : alook (m ++ n) k = alook n k := by
  induction m with
  | nil => simp [alook]
  | cons p rest ih =>
    obtain ⟨k1, v1⟩ := p
    by_cases hk : k1 = k
    · simp [alook, hk] at h
    · simp only [alook, if_neg hk] at h ⊢
      exact ih h

/-- Replacing the value under a present key makes lookups of it return the
new value. -/
theorem alook_replaceVal_self {κ α : Type} [DecidableEq κ] {m : List (κ × α)} {k : κ}
    (v : α) (h : (alook m k).isSome = true) : alook (replaceVal m k v) k = some v := by
  induction m with
  | nil => simp [alook] at h
  | cons p rest ih =>
    obtain ⟨k1, v1⟩ := p
    by_cases hk : k1 = k
    · simp [replaceVal, hk, alook]
    · simp only [alook, if_neg hk] at h
      simp only [replaceVal, if_neg hk, alook, if_neg hk]
      exact ih h

/-- Replacing one key's value leaves every other lookup unchanged. -/
theorem alook_replaceVal_ne {κ α : Type} [DecidableEq κ] {m : List (κ × α)} {k k' : κ}
    (v : α) (h : k' ≠ k) : alook (replaceVal m k v) k' = alook m k' := by
  induction m with
  | nil => simp [replaceVal]
  | cons p rest ih =>
    obtain ⟨k1, v1⟩ := p
    by_cases hk : k1 = k
    · subst hk
      have h1 : ¬ (k1 = k') := fun hh => h hh.symm
      simp [replaceVal, alook, h1]
    · simp [replaceVal, hk, alook, ih]

/-- Replacing the value of a key that only occurs as the freshly appended
last binding rewrites exactly that binding. -/
theorem replaceVal_append_last {κ α : Type} [DecidableEq κ] {m : List (κ × α)} {k : κ}
    (w v : α) (h : alook m k = none) :
    replaceVal (m ++ [(k, w)]) k v = m ++ [(k, v)] := by
  induction m with
  | nil => simp [replaceVal]
  | cons p rest ih =>
    obtain ⟨k1, v1⟩ := p
    by_cases hk : k1 = k
    · simp [alook, hk] at h
    · simp only [alook, if_neg hk] at h
      simp [replaceVal, hk, ih h]

/-- The export-registration loop never removes a key from the destination
map: a key mapped at entry is still mapped in the final map, whether or not
the loop stops with the duplicate-key error. -/
theorem registerExports_keeps_keys (fuel : Nat) :
    ∀ (es : List (String × Exportee)) (s : RwState) (m : List (String × Exportee))
      (out : List (String × Exportee) × RwState × Option MergeError),
      registerExports fuel s es m = some out →
      ∀ k, (alook m k).isSome = true → (alook out.1 k).isSome = true := by
  intro es
  induction es with
  | nil =>
    intro s m out hrun k hk
    simp only [registerExports] at hrun
    cases hrun
    exact hk
  | cons p rest ih =>
    intro s m out hrun k hk
    obtain ⟨k0, e0⟩ := p
    cases halook : alook m k0 with
    | some old =>
      simp only [registerExports, insertMap, halook] at hrun
      cases hrun
      by_cases hkk : k = k0
      · subst hkk
        rw [alook_replaceVal_self e0 hk]
        rfl
      · rw [alook_replaceVal_ne e0 hkk]
        exact hk
    | none =>
      simp only [registerExports, insertMap, halook] at hrun
      cases htr : transformExportee fuel s e0 with
      | none => simp [htr] at hrun
      | some ts =>
        obtain ⟨t, s₁⟩ := ts
        simp only [htr] at hrun
        rw [replaceVal_append_last e0 (applyToExportee t e0) halook] at hrun
        refine ih s₁ (m ++ [(k0, applyToExportee t e0)]) out hrun k ?_
        obtain ⟨v, hv⟩ := Option.isSome_iff_exists.mp hk
        simp [alook_append_of_some _ hv]

/-- Running the registration loop over exports whose keys collide with
nothing: no error is reported and every export key ends up present. -/
theorem registerExports_no_collision (fuel : Nat) :
    ∀ (es : List (String × Exportee)) (s : RwState) (m : List (String × Exportee))
      (out : List (String × Exportee) × RwState × Option MergeError),
      (∀ p ∈ es, alook m p.1 = none) →
      (es.map Prod.fst).Nodup →
      registerExports fuel s es m = some out →
      out.2.2 = none ∧ ∀ p ∈ es, (alook out.1 p.1).isSome = true := by
  intro es
  induction es with
  | nil =>
    intro s m out _ _ hrun
    simp only [registerExports] at hrun
    cases hrun
    simp
  | cons p rest ih =>
    intro s m out hnone hnodup hrun
    obtain ⟨k0, e0⟩ := p
    have halook : alook m k0 = none := hnone (k0, e0) (by simp)
    simp only [registerExports, insertMap, halook] at hrun
    cases htr : transformExportee fuel s e0 with
    | none => simp [htr] at hrun
    | some ts =>
      obtain ⟨t, s₁⟩ := ts
      simp only [htr] at hrun
      rw [replaceVal_append_last e0 (applyToExportee t e0) halook] at hrun
      simp only [List.map_cons, List.nodup_cons] at hnodup
      have hnone' : ∀ q ∈ rest, alook (m ++ [(k0, applyToExportee t e0)]) q.1 = none := by
        intro q hq
        have hqm : alook m q.1 = none := hnone q (by simp [hq])
        have hqk : q.1 ≠ k0 := by
          intro hh
          exact hnodup.1 (hh ▸ List.mem_map_of_mem Prod.fst hq)
        rw [alook_append_of_none _ hqm]
        have h1 : ¬ (k0 = q.1) := fun hh => hqk hh.symm
        simp [alook, h1]
      obtain ⟨herr, hkeys⟩ := ih s₁ _ out hnone' hnodup.2 hrun
      refine ⟨herr, ?_⟩
      intro q hq
      rcases List.mem_cons.mp hq with hq | hq
      · subst hq
        refine registerExports_keeps_keys fuel rest s₁ _ out hrun _ ?_
        rw [alook_append_of_none _ halook]
        simp [alook]
      · exact hkeys q hq

/-- Running the registration loop when some later key collides with the
destination map: the loop stops with `DuplicateExportKey`, the colliding
key's value has been replaced by the merged module's exportee, and every
entry inserted before the failing key is still present. -/
theorem registerExports_collision (fuel : Nat) :
    ∀ (pre : List (String × Exportee)) (k : String) (e : Exportee)
      (rest : List (String × Exportee)) (s : RwState) (m : List (String × Exportee))
      (out : List (String × Exportee) × RwState × Option MergeError),
      (∀ p ∈ pre, alook m p.1 = none) →
      (pre.map Prod.fst).Nodup →
      k ∉ pre.map Prod.fst →
      (alook m k).isSome = true →
      registerExports fuel s (pre ++ (k, e) :: rest) m = some out →
      out.2.2 = some .duplicateExportKey ∧
      alook out.1 k = some e ∧
      ∀ p ∈ pre, (alook out.1 p.1).isSome = true := by
  intro pre
  induction pre with
  | nil =>
    intro k e rest s m out _ _ _ hk hrun
    obtain ⟨old, hold⟩ := Option.isSome_iff_exists.mp hk
    simp only [List.nil_append, registerExports, insertMap, hold] at hrun
    cases hrun
    exact ⟨rfl, alook_replaceVal_self e hk, by simp⟩
  | cons p pre' ih =>
    intro k e rest s m out hnone hnodup hknot hk hrun
    obtain ⟨k0, e0⟩ := p
    have halook : alook m k0 = none := hnone (k0, e0) (by simp)
    simp only [List.cons_append, registerExports, insertMap, halook] at hrun
    cases htr : transformExportee fuel s e0 with
    | none => simp [htr] at hrun
    | some ts =>
      obtain ⟨t, s₁⟩ := ts
      simp only [htr] at hrun
      rw [replaceVal_append_last e0 (applyToExportee t e0) halook] at hrun
      simp only [List.map_cons, List.nodup_cons] at hnodup
      simp only [List.map_cons, List.mem_cons, not_or] at hknot
      have hnone' : ∀ q ∈ pre', alook (m ++ [(k0, applyToExportee t e0)]) q.1 = none := by
        intro q hq
        have hqm : alook m q.1 = none := hnone q (by simp [hq])
        have hqk : q.1 ≠ k0 := by
          intro hh
          exact hnodup.1 (hh ▸ List.mem_map_of_mem Prod.fst hq)
        rw [alook_append_of_none _ hqm]
        have h1 : ¬ (k0 = q.1) := fun hh => hqk hh.symm
        simp [alook, h1]
      have hk' : (alook (m ++ [(k0, applyToExportee t e0)]) k).isSome = true := by
        obtain ⟨v, hv⟩ := Option.isSome_iff_exists.mp hk
        simp [alook_append_of_some _ hv]
      obtain ⟨herr, hval, hkeys⟩ := ih k e rest s₁ _ out hnone' hnodup.2 hknot.2 hk' hrun
      refine ⟨herr, hval, ?_⟩
      intro q hq
      rcases List.mem_cons.mp hq with hq | hq
      · subst hq
        refine registerExports_keeps_keys fuel (pre' ++ (k, e) :: rest) s₁ _ out hrun _ ?_
        rw [alook_append_of_none _ halook]
        simp [alook]
      · exact hkeys q hq

/-- C4: the registration loop inserts each export of the merged module into
the destination's export map and returns `DuplicateExportKey` when an
inserted key already exists there; on such a failure every entry inserted
before the failing key is still present (not rolled back), and when no key
collides the loop inserts everything and reports no error. Concretely,
merging two modules that both export "main" fails with `DuplicateExportKey`
while the function already copied into the destination arena stays there. -/
theorem c4_duplicate_export_key (fuel : Nat) :
    (∀ (pre : List (String × Exportee)) (k : String) (e : Exportee)
      (rest : List (String × Exportee)) (s : RwState) (m : List (String × Exportee))
      (out : List (String × Exportee) × RwState × Option MergeError),
      (∀ p ∈ pre, alook m p.1 = none) →
      (pre.map Prod.fst).Nodup →
      k ∉ pre.map Prod.fst →
      (alook m k).isSome = true →
      registerExports fuel s (pre ++ (k, e) :: rest) m = some out →
      out.2.2 = some .duplicateExportKey ∧
      ∀ p ∈ pre, (alook out.1 p.1).isSome = true) ∧
    (∀ (es : List (String × Exportee)) (s : RwState) (m : List (String × Exportee))
      (out : List (String × Exportee) × RwState × Option MergeError),
      (∀ p ∈ es, alook m p.1 = none) →
      (es.map Prod.fst).Nodup →
      registerExports fuel s es m = some out →
      out.2.2 = none ∧ ∀ p ∈ es, (alook out.1 p.1).isSome = true) ∧
    (mergeModules 50 cxC1 mergeeC4 mergedC4 100).map (fun r => r.2.2) =
      some (some .duplicateExportKey) ∧
    (mergeModules 50 cxC1 mergeeC4 mergedC4 100).map (fun r => r.1.funcs) =
      some [(5, ⟨[]⟩), (100, ⟨[]⟩)] := by
  refine ⟨?_, registerExports_no_collision fuel, by decide, by decide⟩
  intro pre k e rest s m out hnone hnodup hknot hk hrun
  obtain ⟨herr, _, hkeys⟩ :=
    registerExports_collision fuel pre k e rest s m out hnone hnodup hknot hk hrun
  exact ⟨herr, hkeys⟩

/-- C4 witness: the collision clause applied at a concrete one-entry map and
a colliding single export. -/
theorem c4_duplicate_export_key_witness :
    (registerExports 5 rwChainState [("main", .fn 0)] [("main", .fn 5)]).map
        (fun out => out.2.2) =
      some (some .duplicateExportKey) := by
  cases hrun : registerExports 5 rwChainState [("main", .fn 0)] [("main", .fn 5)] with
  | none => exact absurd hrun (by decide)
  | some out =>
    have h := (c4_duplicate_export_key 5).1 [] "main" (.fn 0) [] rwChainState
      [("main", .fn 5)] out (by simp) (by simp) (by simp) (by decide) (by simpa using hrun)
    simp [h.1]

/-- C5: when the registration loop stops with `DuplicateExportKey`, the
destination's pre-existing value under the conflicting key has already been
replaced by the merged module's exportee (the insert happens before the
duplicate check), so the conflicting entry is mutated rather than preserved —
concretely, after the failed merge of two modules exporting "main", the
destination's "main" entry holds the merged module's exportee. -/
theorem c5_conflicting_entry_replaced (fuel : Nat) :
    (∀ (pre : List (String × Exportee)) (k : String) (e : Exportee)
      (rest : List (String × Exportee)) (s : RwState) (m : List (String × Exportee))
      (out : List (String × Exportee) × RwState × Option MergeError),
      (∀ p ∈ pre, alook m p.1 = none) →
      (pre.map Prod.fst).Nodup →
      k ∉ pre.map Prod.fst →
      (alook m k).isSome = true →
      registerExports fuel s (pre ++ (k, e) :: rest) m = some out →
      alook out.1 k = some e) ∧
    (mergeModules 50 cxC1 mergeeC4 mergedC4 100).map (fun r => alook r.1.exports "main") =
      some (some (.fn 0)) := by
  refine ⟨?_, by decide⟩
  intro pre k e rest s m out hnone hnodup hknot hk hrun
  exact (registerExports_collision fuel pre k e rest s m out hnone hnodup hknot hk hrun).2.1

/-- C5 witness: the replacement clause applied at a concrete map whose
"main" entry held function 5 and a merged export binding "main" to
function 0. -/
theorem c5_conflicting_entry_replaced_witness :
    (registerExports 5 rwChainState [("main", .fn 0)] [("main", .fn 5)]).map
        (fun out => alook out.1 "main") =
      some (some (.fn 0)) := by
  cases hrun : registerExports 5 rwChainState [("main", .fn 0)] [("main", .fn 5)] with
  | none => exact absurd hrun (by decide)
  | some out =>
    have h := (c5_conflicting_entry_replaced 5).1 [] "main" (.fn 0) [] rwChainState
      [("main", .fn 5)] out (by simp) (by simp) (by simp) (by decide) (by simpa using hrun)
    simp [h]

set_option maxHeartbeats 4000000 in
/-- C1 failing input, evaluated: merging `mergedC1` (which exports only
function 0, whose body is empty, so only function 0 is reachable from the
exports) into an empty destination *succeeds* yet copies the unreachable
function 2 (body `[.ty 7]`) into the destination arena as handle 101 — the
unreachable function 1 references function 2, giving it the second encounter
the mark-and-commit trick mistakes for reachability. -/
theorem c1_unreachable_declaration_copied :
    (mergeModules 50 cxC1 mergeeC1 mergedC1 100).map
        (fun r => (r.1.exports, r.1.funcs, r.2.2)) =
      some ([("E", .fn 100)], [(100, ⟨[]⟩), (101, ⟨[.ty 7]⟩)], none) ∧
    reachableFromExports cxC1 mergedC1 50 = some ⟨[], [], [], [], [0]⟩ ∧
    alook mergedC1.funcs 2 = some ⟨[.ty 7]⟩ ∧
    mergeeC1.funcs = [] := by
  refine ⟨by decide, by decide, by decide, rfl⟩

/-- C2 failing input, evaluated: during the export pass alone (the loop over
`merged.exports` of `merge`), the single function of `mergedC2` — exported
under three keys, hence encountered three times — is physically copied on its
second *and* third encounters (handles 100 and 101), not exactly once; after
the full collection a third copy (102) exists and the rewrite map records
only the last copy. -/
theorem c2_copied_on_every_later_encounter :
    (visitUses mergedC2 cxC1 50 (initCollector mergeeC1 100)
        (mergedC2.exports.map (fun p => exporteeUse p.2))).map
        (fun c => (c.rewriteFunc, c.dstFuncs, c.seenFuncs)) =
      some ([(0, 101), (0, 100)], [(100, ⟨[]⟩), (101, ⟨[]⟩)], [0]) ∧
    (collectPhase cxC1 mergedC2 mergeeC1 100 50).map
        (fun c => (c.rewriteFunc, c.dstFuncs)) =
      some ([(0, 102), (0, 101), (0, 100)],
        [(100, ⟨[]⟩), (101, ⟨[]⟩), (102, ⟨[]⟩)]) ∧
    alook [((0 : Nat), (102 : Nat)), (0, 101), (0, 100)] 0 = some 102 ∧
    mergedC2.funcs = [(0, ⟨[]⟩)] := by
  refine ⟨by decide, by decide, by decide, rfl⟩

end Spirt
